import Mathlib

/-!
# Remote text fetch: `UI/remote-text.cpp`

A shallow embedding of the two fetch paths of `UI/remote-text.cpp`:

* `RemoteText::start` with its three slots (`slotHttpReadyRead`,
  `slotHttpFinished`, `slotHttpError`), the asynchronous fetch object;
* `GetRemoteFile`, the synchronous call that spins a local `QEventLoop`.

Qt itself is outside the repository.  Its objects are embedded by what the code
does with them: a `QNetworkRequest` is the sequence of setter calls made on it,
a `QNetworkReply` is the sequence of signals it delivers together with the
response metadata the code reads, and the text conversions are a parameter
(`TextCodec`).  Logging through `blog` has no effect on any value computed here
and is left out.
-/

namespace Obs

/-! ## Strings -/

/-- Contents of a `std::string`, a C string or a `QByteArray`: 8-bit units. -/
abbrev Bytes := List UInt8

/-- A `QString`: Unicode text. -/
abbrev QString := String

/-- The bytes of an ASCII literal of the source. -/
def ascii (s : String) : Bytes := s.toList.map (fun ch => ch.toNat.toUInt8)

/-- The conversions between byte strings and `QString` that the code calls.
They are Qt functions, so the embedding takes them as a parameter and every
theorem below holds for whatever they compute. -/
structure TextCodec where
  /-- Stands for `QString::fromUtf8`, `QString::fromStdString` and the implicit
  conversion `QString(const QByteArray &)`. -/
  fromUtf8 : Bytes → QString
  /-- Stands for `QString::toUtf8` and `QString::toStdString`. -/
  toUtf8 : QString → Bytes

/-- Whether `b` is a UTF-8 continuation byte `10xxxxxx`. -/
def isCont (b : UInt8) : Bool := 0x80 ≤ b.toNat && b.toNat < 0xC0

/-- Payload bits of a continuation byte. -/
def contBits (b : UInt8) : Nat := b.toNat - 0x80

/-- Decodes the UTF-8 sequence that starts at the head of the input: the
character and the number of bytes it takes, or `none` when the input does not
start with a well-formed sequence (stray continuation byte, truncated or
overlong sequence, surrogate, code point above U+10FFFF). -/
def decodeAt : Bytes → Option (Char × Nat)
  | [] => none
  | b0 :: rest =>
    let n0 := b0.toNat
    if n0 < 0x80 then some (Char.ofNat n0, 1)
    else if 0xC2 ≤ n0 && n0 < 0xE0 then
      match rest with
      | b1 :: _ =>
        if isCont b1 then some (Char.ofNat ((n0 - 0xC0) * 64 + contBits b1), 2) else none
      | _ => none
    else if 0xE0 ≤ n0 && n0 < 0xF0 then
      match rest with
      | b1 :: b2 :: _ =>
        let cp := (n0 - 0xE0) * 4096 + contBits b1 * 64 + contBits b2
        if isCont b1 && isCont b2 && 0x800 ≤ cp && !(0xD800 ≤ cp && cp < 0xE000) then
          some (Char.ofNat cp, 3)
        else none
      | _ => none
    else if 0xF0 ≤ n0 && n0 < 0xF5 then
      match rest with
      | b1 :: b2 :: b3 :: _ =>
        let cp := (n0 - 0xF0) * 262144 + contBits b1 * 4096 + contBits b2 * 64 + contBits b3
        if isCont b1 && isCont b2 && isCont b3 && 0x10000 ≤ cp && cp < 0x110000 then
          some (Char.ofNat cp, 4)
        else none
      | _ => none
    else none

/-- UTF-8 decoding with U+FFFD in place of every byte that starts no
well-formed sequence; `skip` counts the bytes already consumed by the sequence
decoded last. -/
def utf8DecodeAux : Nat → Bytes → List Char
  | _, [] => []
  | skip + 1, _ :: rest => utf8DecodeAux skip rest
  | 0, b :: rest =>
    match decodeAt (b :: rest) with
    | some (ch, len) => ch :: utf8DecodeAux (len - 1) rest
    | none => Char.ofNat 0xFFFD :: utf8DecodeAux 0 rest

/-- UTF-8 decoding of a byte string. -/
def utf8Decode (bs : Bytes) : QString := String.mk (utf8DecodeAux 0 bs)

/-- UTF-8 encoding of a text. -/
def utf8Encode (s : QString) : Bytes := s.toList.flatMap String.utf8EncodeChar

/-- The UTF-8 codec, the instance of `TextCodec` at which the theorems are
evaluated on concrete inputs. -/
def utf8 : TextCodec := ⟨utf8Decode, utf8Encode⟩

/-- A value of the C++ type `int` (32 bits, two's complement). -/
def isInt32 (x : Int) : Prop := -2147483648 ≤ x ∧ x ≤ 2147483647

instance (x : Int) : Decidable (isInt32 x) := by unfold isInt32; infer_instance

/-- The `int` that a 32-bit two's complement machine yields for an arithmetic
result `x`.  It is `x` itself whenever `x` is an `int`; C++ leaves the result
of a signed operation undefined otherwise, and the targets of the program wrap
around. -/
def wrapInt32 (x : Int) : Int := (x + 2147483648) % 4294967296 - 2147483648

/-! ## `QNetworkRequest` -/

/-- The members of `QNetworkRequest::KnownHeaders` the code uses. -/
inductive KnownHeaders
  | UserAgentHeader
  | ContentTypeHeader
deriving DecidableEq, Repr

/-- A setter call on a `QNetworkRequest`. -/
inductive RequestCall
  | setHeader (header : KnownHeaders) (value : QString)
  | setTransferTimeout (timeout : Int)
  | setRawHeader (headerName headerValue : Bytes)
deriving DecidableEq, Repr

/-- A `QNetworkRequest`: the URL it was constructed with and the setter calls
made on it, in program order. -/
structure QNetworkRequest where
  url : QString
  calls : List RequestCall
deriving DecidableEq, Repr

namespace QNetworkRequest

/-- Call `request.setHeader(header, value)`. -/
def setHeader (request : QNetworkRequest) (header : KnownHeaders) (value : QString) :
    QNetworkRequest :=
  { request with calls := request.calls ++ [RequestCall.setHeader header value] }

/-- Call `request.setTransferTimeout(timeout)`. -/
def setTransferTimeout (request : QNetworkRequest) (timeout : Int) : QNetworkRequest :=
  { request with calls := request.calls ++ [RequestCall.setTransferTimeout timeout] }

/-- Call `request.setRawHeader(headerName, headerValue)`. -/
def setRawHeader (request : QNetworkRequest) (headerName headerValue : Bytes) :
    QNetworkRequest :=
  { request with calls := request.calls ++ [RequestCall.setRawHeader headerName headerValue] }

end QNetworkRequest

/-- The raw header a call sets, if it is a `setRawHeader` call. -/
def RequestCall.rawHeader? : RequestCall → Option (Bytes × Bytes)
  | .setRawHeader n v => some (n, v)
  | _ => none

/-- The transfer timeout a call configures, if it is a `setTransferTimeout` call. -/
def RequestCall.timeout? : RequestCall → Option Int
  | .setTransferTimeout t => some t
  | _ => none

/-- The raw headers set on the request: the name/value pairs of the
`setRawHeader` calls, in call order. -/
def QNetworkRequest.rawHeaders (request : QNetworkRequest) : List (Bytes × Bytes) :=
  request.calls.filterMap RequestCall.rawHeader?

/-- The transfer timeout configured on the request: the argument of the last
`setTransferTimeout` call, `none` when there was no such call. -/
def QNetworkRequest.transferTimeout (request : QNetworkRequest) : Option Int :=
  (request.calls.filterMap RequestCall.timeout?).getLast?

/-- ASCII lower case of a byte. -/
def lowerAscii (b : UInt8) : UInt8 := if 65 ≤ b.toNat ∧ b.toNat ≤ 90 then b + 32 else b

/-- Header names are compared without regard to ASCII case, as Qt does. -/
def sameHeaderName (a b : Bytes) : Bool := a.map lowerAscii == b.map lowerAscii

/-- The wire name of a known header. -/
def KnownHeaders.name : KnownHeaders → Bytes
  | .UserAgentHeader => ascii "User-Agent"
  | .ContentTypeHeader => ascii "Content-Type"

/-- The value a header of a request holds: text given through `setHeader`, or
bytes given through `setRawHeader`. -/
inductive HeaderValue
  | cooked (value : QString)
  | raw (value : Bytes)
deriving DecidableEq, Repr

/-- The value a call gives to the known header `h`: `setHeader` on `h` itself,
or `setRawHeader` under the name of `h` (Qt parses a raw header of a known name
into the known header, and setting a header again overrides it). -/
def RequestCall.writes (h : KnownHeaders) : RequestCall → Option HeaderValue
  | .setHeader k v => if k = h then some (.cooked v) else none
  | .setRawHeader n v => if sameHeaderName n h.name then some (.raw v) else none
  | .setTransferTimeout _ => none

/-- The value of the known header `h` on the request: the last value written
to it, `none` when it was never set. -/
def QNetworkRequest.header (request : QNetworkRequest) (h : KnownHeaders) : Option HeaderValue :=
  (request.calls.filterMap (RequestCall.writes h)).getLast?

/-! ## The extra-header loop -/

/-- The separator `": "` of a header line. -/
def headerSep : Bytes := ascii ": "

/-- Embeds `std::string::find(pat)`: the position of the first occurrence of
`pat`, `none` for `npos`. -/
def find (pat : Bytes) : Bytes → Option Nat
  | [] => if pat.isPrefixOf [] then some 0 else none
  | b :: s => if pat.isPrefixOf (b :: s) then some 0 else (find pat s).map (· + 1)

/-- One iteration of the loop over `extraHeaders` (the same text in
`RemoteText::start` and in `GetRemoteFile`). -/
def extraHeaderStep (request : QNetworkRequest) (h : Bytes) : QNetworkRequest :=
  match find headerSep h with
  | none => request
  | some loc => request.setRawHeader (h.take loc) (h.drop (loc + 2))

/-- The loop `for (std::string &h : extraHeaders)`. -/
def extraHeadersLoop (extraHeaders : List Bytes) (request : QNetworkRequest) : QNetworkRequest :=
  extraHeaders.foldl extraHeaderStep request

/-- The name/value pair the loop sets for the line `h`, if it sets one. -/
def headerPair (h : Bytes) : Option (Bytes × Bytes) :=
  match find headerSep h with
  | none => none
  | some loc => some (h.take loc, h.drop (loc + 2))

/-- Whether the line `h` sets the header named `name` (compared as Qt compares
header names). -/
def isLineOf (name : Bytes) (h : Bytes) : Bool :=
  match headerPair h with
  | none => false
  | some (n, _) => sameHeaderName n name

/-! ## Dispatch and reply -/

/-- The call made on the `QNetworkAccessManager`. -/
inductive Dispatch
  | get (request : QNetworkRequest)
  | post (request : QNetworkRequest) (data : Bytes)
deriving DecidableEq, Repr

/-- The request a dispatch carries. -/
def Dispatch.request : Dispatch → QNetworkRequest
  | .get r => r
  | .post r _ => r

/-- Whether the dispatch is a POST. -/
def Dispatch.isPost : Dispatch → Bool
  | .get _ => false
  | .post _ _ => true

/-- A signal of a `QNetworkReply` the code connects to.  `readyRead` carries
what `reply->readAll()` returns in its handler, `errorOccurred` carries what
`reply->errorString()` returns in its handler. -/
inductive ReplyEvent
  | readyRead (data : Bytes)
  | errorOccurred (errorString : QString)
  | finished
deriving DecidableEq, Repr

/-- The bytes a signal delivers: those of `readyRead`, none otherwise. -/
def ReplyEvent.data : ReplyEvent → Bytes
  | .readyRead data => data
  | _ => []

/-- The bytes delivered by the signals `events`, in arrival order. -/
def received (events : List ReplyEvent) : Bytes :=
  (events.map ReplyEvent.data).flatten

/-- Whether the signal is `errorOccurred`. -/
def ReplyEvent.isError : ReplyEvent → Bool
  | .errorOccurred _ => true
  | _ => false

/-- Whether the signal is `finished` or `errorOccurred`. -/
def ReplyEvent.isTerminal : ReplyEvent → Bool
  | .readyRead _ => false
  | _ => true

/-- A `QNetworkReply` as the code observes it: the signals it delivers, in
order, and the response metadata read once the exchange is over. -/
structure QNetworkReply where
  events : List ReplyEvent
  /-- Stands for `reply->hasRawHeader(name)`. -/
  hasRawHeader : Bytes → Bool
  /-- Stands for `reply->rawHeader(name)`. -/
  rawHeader : Bytes → Bytes
  /-- Stands for `reply->attribute(HttpStatusCodeAttribute).toInt()`. -/
  httpStatusCode : Int

/-- The user agent text `QString("User-Agent: obs-basic %1").arg(version)`. -/
def userAgent (c : TextCodec) (version : Bytes) : QString :=
  "User-Agent: obs-basic " ++ c.fromUtf8 version

/-- The default content type of a POST. -/
def formUrlencoded : QString := "application/x-www-form-urlencoded"

/-! ## `RemoteText` -/

/-- The members of `RemoteText` that `start` and the slots use.  The class is
declared in `remote-text.hpp`; the members are typed as their uses in
`remote-text.cpp` require, `timeoutSec` as the `int` it is in `GetRemoteFile`. -/
structure RemoteText where
  url : Bytes
  contentType : Bytes
  postData : Bytes
  extraHeaders : List Bytes
  timeoutSec : Int
  buffer : Bytes
deriving DecidableEq, Repr

/-- An emission of the signal `Result(const QString &text, const QString &error)`. -/
structure Result where
  text : QString
  error : QString
deriving DecidableEq, Repr

namespace RemoteText

/-- The request `RemoteText::start` has built when it reaches the test of
`postData` (lines 30 to 50). -/
def startRequest (c : TextCodec) (version : Bytes) (self : RemoteText) : QNetworkRequest :=
  let request : QNetworkRequest := ⟨c.fromUtf8 self.url, []⟩
  let request := request.setHeader .UserAgentHeader (userAgent c version)
  let request :=
    if self.contentType ≠ [] then
      request.setHeader .ContentTypeHeader (c.fromUtf8 self.contentType)
    else request
  let request :=
    if self.timeoutSec ≠ 0 then
      request.setTransferTimeout (wrapInt32 (1000 * self.timeoutSec))
    else request
  extraHeadersLoop self.extraHeaders request

/-- Embeds `RemoteText::start`: the object with its buffer cleared, and the
call made on the access manager. -/
def start (c : TextCodec) (version : Bytes) (self : RemoteText) : RemoteText × Dispatch :=
  let cleared := { self with buffer := [] }
  let request := startRequest c version self
  if self.postData ≠ [] then
    let request :=
      if self.contentType = [] then
        request.setHeader .ContentTypeHeader formUrlencoded
      else request
    (cleared, Dispatch.post request self.postData)
  else
    (cleared, Dispatch.get request)

/-- Embeds `RemoteText::slotHttpReadyRead`; `data` is `reply->readAll()`. -/
def slotHttpReadyRead (self : RemoteText) (data : Bytes) : RemoteText :=
  { self with buffer := self.buffer ++ data }

/-- Embeds `RemoteText::slotHttpFinished`: the emitted `Result`. -/
def slotHttpFinished (c : TextCodec) (self : RemoteText) : Result :=
  ⟨c.fromUtf8 self.buffer, ""⟩

/-- Embeds `RemoteText::slotHttpError`: the emitted `Result`; `errorString` is
`reply->errorString()`. -/
def slotHttpError (errorString : QString) : Result :=
  ⟨"", errorString⟩

/-- Delivery of one signal of the reply to the slot connected to it; the
second component collects the `Result` emissions so far. -/
def deliver (c : TextCodec) (st : RemoteText × List Result) : ReplyEvent → RemoteText × List Result
  | .readyRead data => (st.1.slotHttpReadyRead data, st.2)
  | .finished => (st.1, st.2 ++ [st.1.slotHttpFinished c])
  | .errorOccurred e => (st.1, st.2 ++ [slotHttpError e])

/-- The object after the signals `events` were delivered, with the `Result`
emissions they caused (appended to `emitted`). -/
def run (c : TextCodec) (self : RemoteText) (emitted : List Result) (events : List ReplyEvent) :
    RemoteText × List Result :=
  events.foldl (deliver c) (self, emitted)

/-- One asynchronous exchange: `start`, then the signals of the reply.  The
result is the list of `Result` emissions. -/
def exchange (c : TextCodec) (version : Bytes) (self : RemoteText) (events : List ReplyEvent) :
    List Result :=
  (run c (start c version self).1 [] events).2

end RemoteText

/-! ## `GetRemoteFile` -/

/-- The arguments of `GetRemoteFile`.  A reference argument (`str`, `error`)
holds the value the caller's variable has before the call; a pointer argument
is `none` for a null pointer and otherwise holds what it points to before the
call (for `contentType` and `postData`, the C string). -/
structure GetRemoteFileArgs where
  url : Bytes
  str : Bytes
  error : Bytes
  responseCode : Option Int
  contentType : Option Bytes
  request_type : Bytes
  postData : Option Bytes
  extraHeaders : List Bytes
  signature : Option Bytes
  timeoutSec : Int
  fail_on_error : Bool
  postDataSize : Int
deriving DecidableEq, Repr

/-- What `GetRemoteFile` hands back: the return value and the caller's
variables after the call. -/
structure GetRemoteFileOut where
  ret : Bool
  str : Bytes
  error : Bytes
  responseCode : Option Int
  signature : Option Bytes
deriving DecidableEq, Repr

/-- The locals of `GetRemoteFile` that its three lambdas capture. -/
structure LoopState where
  buffer : Bytes
  errorString : QString
  in_error : Bool
deriving DecidableEq, Repr

/-- The request `GetRemoteFile` builds (lines 104 to 125). -/
def GetRemoteFile.request (c : TextCodec) (version : Bytes) (a : GetRemoteFileArgs) :
    QNetworkRequest :=
  let request : QNetworkRequest := ⟨c.fromUtf8 a.url, []⟩
  let request := request.setHeader .UserAgentHeader (userAgent c version)
  let request :=
    match a.contentType with
    | some contentType => request.setHeader .ContentTypeHeader (c.fromUtf8 contentType)
    | none => request
  let request :=
    if a.timeoutSec ≠ 0 then
      request.setTransferTimeout (wrapInt32 (1000 * a.timeoutSec))
    else request
  extraHeadersLoop a.extraHeaders request

/-- The bytes of the C string at the head of a memory block. -/
def cstr (p : Bytes) : Bytes := p.takeWhile (· ≠ 0)

/-- The array `postDataBA` of `GetRemoteFile` (lines 129 to 134):
`QByteArray(postData, postDataSize)` when a size is given (a negative size
means the C string), `QString(postData).toUtf8()` otherwise, empty for a null
`postData`. -/
def GetRemoteFile.postDataBA (c : TextCodec) (a : GetRemoteFileArgs) : Bytes :=
  match a.postData with
  | none => []
  | some postData =>
    if a.postDataSize ≠ 0 then
      if a.postDataSize < 0 then cstr postData else postData.take a.postDataSize.toNat
    else c.toUtf8 (c.fromUtf8 (cstr postData))

/-- The call `GetRemoteFile` makes on the access manager (lines 128 to 138). -/
def GetRemoteFile.dispatch (c : TextCodec) (version : Bytes) (a : GetRemoteFileArgs) : Dispatch :=
  if a.request_type = ascii "POST" then
    Dispatch.post (GetRemoteFile.request c version a) (GetRemoteFile.postDataBA c a)
  else
    Dispatch.get (GetRemoteFile.request c version a)

/-- Embeds `loop.exec()` with the three lambdas connected to the reply: the
signals are handled in order until a handler calls `loop.quit()`.  The result
is `none` when no signal ever quits the loop, in which case `exec` does not
return. -/
def loopExec : List ReplyEvent → LoopState → Option LoopState
  | [], _ => none
  | .readyRead data :: events, st => loopExec events { st with buffer := st.buffer ++ data }
  | .errorOccurred e :: _, st => some { st with in_error := true, errorString := e }
  | .finished :: _, st => some st

/-- The header name looked up for the signature. -/
def sigHeaderLabel (c : TextCodec) : Bytes := c.toUtf8 "X-Signature"

/-- Embeds `GetRemoteFile`.  `qnam` is the access manager: it answers a
dispatch with the reply.  The result is `none` when the call never returns. -/
def GetRemoteFile (c : TextCodec) (version : Bytes) (qnam : Dispatch → QNetworkReply)
    (a : GetRemoteFileArgs) : Option GetRemoteFileOut :=
  let reply := qnam (GetRemoteFile.dispatch c version a)
  match loopExec reply.events ⟨[], "", false⟩ with
  | none => none
  | some st =>
    let str := st.buffer
    let signature :=
      match a.signature with
      | some old =>
        if reply.hasRawHeader (sigHeaderLabel c) then
          some (c.toUtf8 (c.fromUtf8 (reply.rawHeader (sigHeaderLabel c))))
        else some old
      | none => none
    let responseCode :=
      match a.responseCode with
      | some _ => some reply.httpStatusCode
      | none => none
    if st.in_error then
      let error := c.toUtf8 st.errorString
      if a.fail_on_error then
        some ⟨false, str, error, responseCode, signature⟩
      else
        some ⟨true, str, error, responseCode, signature⟩
    else
      some ⟨true, str, a.error, responseCode, signature⟩

/-- The calls the loop over the extra headers makes. -/
def extraHeaderCalls (extraHeaders : List Bytes) : List RequestCall :=
  (extraHeaders.filterMap headerPair).map fun p => RequestCall.setRawHeader p.1 p.2

/-! ## Inputs on which the theorems are evaluated -/

/-- A fetch object for `https://example.test/version.json` with neither POST
data nor extra headers, whose buffer still holds bytes of an earlier request. -/
def versionCheck : RemoteText :=
  { url := ascii "https://example.test/version.json"
    contentType := []
    postData := []
    extraHeaders := []
    timeoutSec := 0
    buffer := ascii "stale" }

/-- A fetch object that posts `a=1` with a timeout of five seconds and three
extra header lines, one of them without separator. -/
def formPost : RemoteText :=
  { url := ascii "https://example.test/submit"
    contentType := []
    postData := ascii "a=1"
    extraHeaders := [ascii "X-Token: a: b", ascii "malformed", ascii "Accept: */*"]
    timeoutSec := 5
    buffer := [] }

/-- Arguments of a synchronous GET with all outputs requested. -/
def plainGet : GetRemoteFileArgs :=
  { url := ascii "https://example.test/version.json"
    str := []
    error := []
    responseCode := some 0
    contentType := none
    request_type := ascii "GET"
    postData := none
    extraHeaders := [ascii "X-Token: a: b", ascii "malformed", ascii "Accept: */*"]
    signature := some (ascii "unset")
    timeoutSec := 5
    fail_on_error := true
    postDataSize := 0 }

/-- An access manager whose reply delivers `events` and carries the response
headers `headers` (looked up by name without regard to case) and the status
`status`. -/
def replyWith (events : List ReplyEvent) (headers : List (Bytes × Bytes)) (status : Int) :
    Dispatch → QNetworkReply := fun _ =>
  { events := events
    hasRawHeader := fun name => headers.any fun p => sameHeaderName p.1 name
    rawHeader := fun name =>
      match headers.find? fun p => sameHeaderName p.1 name with
      | some p => p.2
      | none => []
    httpStatusCode := status }

/-! ## Lemmas on the UTF-8 codec -/

theorem find_eq_none_iff (pat : Bytes) : ∀ s : Bytes, find pat s = none ↔ ¬ pat <:+: s
  | [] => by
    by_cases h : pat = []
    · subst h; simp [find]
    · simp [find, h]
  | b :: t => by
    have ih := find_eq_none_iff pat t
    by_cases h : pat <+: b :: t
    · have h' : pat.isPrefixOf (b :: t) = true := List.isPrefixOf_iff_prefix.mpr h
      simp only [find, h', if_true]
      constructor
      · intro h0; cases h0
      · intro h0; exact absurd h.isInfix h0
    · have h' : pat.isPrefixOf (b :: t) = false :=
        Bool.eq_false_iff.mpr fun h0 => h ( List.isPrefixOf_iff_prefix.mp h0)
      have hfind : find pat (b :: t) = (find pat t).map (· + 1) := by
        simp [find, h']
      rw [hfind, Option.map_eq_none', List.infix_cons_iff]
      simp only [h, false_or]
      exact ih

theorem find_eq_some_iff (pat : Bytes) : ∀ (s : Bytes) (loc : Nat),
    find pat s = some loc ↔
      ∃ n v, s = n ++ pat ++ v ∧ n.length = loc ∧
        ∀ n' v', s = n' ++ pat ++ v' → loc ≤ n'.length
  | [], loc => by
    by_cases h : pat = []
    · subst h
      simp only [find, List.isPrefixOf, if_true, Option.some.injEq]
      constructor
      · intro h0; subst h0; exact ⟨[], [], rfl, rfl, fun _ _ _ => Nat.zero_le _⟩
      · rintro ⟨n, v, h1, h2, -⟩
        have : n = [] := by
          cases n with
          | nil => rfl
          | cons => simp at h1
        subst this; exact h2
    · have h' : pat.isPrefixOf [] = false := by
        cases pat with
        | nil => exact absurd rfl h
        | cons => rfl
      simp only [find, h']
      constructor
      · intro h0; cases h0
      · rintro ⟨n, v, h1, -, -⟩
        have : pat = [] := by
          cases n with
          | nil => cases pat with
            | nil => rfl
            | cons => simp at h1
          | cons => simp at h1
        exact absurd this h
  | b :: t, loc => by
    have ih := find_eq_some_iff pat t
    by_cases h : pat <+: b :: t
    · have h' : pat.isPrefixOf (b :: t) = true := List.isPrefixOf_iff_prefix.mpr h
      simp only [find, h', if_true, Option.some.injEq]
      obtain ⟨v, hv⟩ := h
      constructor
      · intro h0; subst h0
        exact ⟨[], v, by simpa using hv.symm, rfl, fun _ _ _ => Nat.zero_le _⟩
      · rintro ⟨n, w, -, -, hmin⟩
        have := hmin [] v (by simpa using hv.symm)
        exact (Nat.le_zero.mp this).symm
    · have h' : pat.isPrefixOf (b :: t) = false :=
        Bool.eq_false_iff.mpr fun h0 => h ( List.isPrefixOf_iff_prefix.mp h0)
      have hfind : find pat (b :: t) = (find pat t).map (· + 1) := by
        simp [find, h']
      rw [hfind]
      constructor
      · intro h0
        cases hf : find pat t with
        | none => rw [hf] at h0; cases h0
        | some l =>
          rw [hf] at h0
          have hloc : l + 1 = loc := by simpa using h0
          obtain ⟨n, v, h1, h2, hmin⟩ := (ih l).mp hf
          refine ⟨b :: n, v, by simp [h1], by simp [h2, hloc], ?_⟩
          intro n' v' h3
          cases n' with
          | nil => exact absurd ⟨v', by simpa using h3.symm⟩ h
          | cons x n'' =>
            simp only [List.cons_append, List.cons.injEq] at h3
            have := hmin n'' v' (by simpa using h3.2)
            simp only [List.length_cons]
            omega
      · rintro ⟨n, v, h1, h2, hmin⟩
        cases n with
        | nil => exact absurd ⟨v, by simpa using h1.symm⟩ h
        | cons x n0 =>
          simp only [List.cons_append, List.cons.injEq] at h1
          have hrec : find pat t = some n0.length := by
            refine (ih n0.length).mpr ⟨n0, v, by simpa using h1.2, rfl, ?_⟩
            intro n' v' h3
            have := hmin (b :: n') v' (by simp [h3])
            rw [← h2] at this
            simpa using this
          rw [hrec, ← h2]
          rfl

theorem headerPair_eq_none_iff (h : Bytes) : headerPair h = none ↔ ¬ headerSep <:+: h := by
  unfold headerPair
  cases hf : find headerSep h with
  | none => simpa using (find_eq_none_iff headerSep h).mp hf
  | some loc =>
    have : ¬ find headerSep h = none := by simp [hf]
    simpa using (not_congr (find_eq_none_iff headerSep h)).mp this

theorem headerSep_length : headerSep.length = 2 := by decide

theorem headerPair_eq_some_iff (h n v : Bytes) :
    headerPair h = some (n, v) ↔
      h = n ++ headerSep ++ v ∧ ∀ n' v', h = n' ++ headerSep ++ v' → n.length ≤ n'.length := by
  unfold headerPair
  constructor
  · intro h0
    cases hf : find headerSep h with
    | none => rw [hf] at h0; cases h0
    | some loc =>
      rw [hf] at h0
      obtain ⟨n0, v0, h1, h2, hmin⟩ := (find_eq_some_iff headerSep h loc).mp hf
      simp only [Option.some.injEq, Prod.mk.injEq] at h0
      have hn : n = n0 := by
        rw [← h0.1, h1, ← h2, List.append_assoc, List.take_left]
      have hv : v = v0 := by
        rw [← h0.2, h1, ← h2, ← headerSep_length, ← List.length_append, List.drop_left]
      subst hn hv
      exact ⟨h1, h2 ▸ hmin⟩
  · rintro ⟨h1, hmin⟩
    have hf : find headerSep h = some n.length :=
      (find_eq_some_iff headerSep h n.length).mpr ⟨n, v, h1, rfl, hmin⟩
    rw [hf]
    simp only [Option.some.injEq, Prod.mk.injEq]
    constructor
    · rw [h1, List.append_assoc, List.take_left]
    · rw [h1, ← headerSep_length, ← List.length_append, List.drop_left]

theorem extraHeaderStep_calls (request : QNetworkRequest) (h : Bytes) :
    (extraHeaderStep request h).calls = request.calls ++ extraHeaderCalls [h] := by
  cases hf : find headerSep h with
  | none => simp [extraHeaderStep, extraHeaderCalls, headerPair, hf]
  | some loc =>
    simp [extraHeaderStep, extraHeaderCalls, headerPair, hf, QNetworkRequest.setRawHeader]

theorem extraHeaderCalls_cons (h : Bytes) (hs : List Bytes) :
    extraHeaderCalls (h :: hs) = extraHeaderCalls [h] ++ extraHeaderCalls hs := by
  cases hp : headerPair h <;> simp [extraHeaderCalls, List.filterMap_cons, hp]

theorem extraHeadersLoop_calls : ∀ (extraHeaders : List Bytes) (request : QNetworkRequest),
    (extraHeadersLoop extraHeaders request).calls =
      request.calls ++ extraHeaderCalls extraHeaders
  | [], request => by simp [extraHeadersLoop, extraHeaderCalls]
  | h :: hs, request => by
    have ih := extraHeadersLoop_calls hs (extraHeaderStep request h)
    unfold extraHeadersLoop at ih ⊢
    rw [List.foldl_cons, ih, extraHeaderStep_calls, extraHeaderCalls_cons h hs,
      List.append_assoc]

theorem extraHeaderCalls_rawHeaders (hs : List Bytes) :
    (extraHeaderCalls hs).filterMap RequestCall.rawHeader? = hs.filterMap headerPair := by
  unfold extraHeaderCalls
  rw [List.filterMap_map]
  have : (RequestCall.rawHeader? ∘ fun p : Bytes × Bytes => RequestCall.setRawHeader p.1 p.2)
      = some := by
    funext p; rfl
  rw [this, List.filterMap_some]

theorem extraHeaderCalls_timeout (hs : List Bytes) :
    (extraHeaderCalls hs).filterMap RequestCall.timeout? = [] := by
  unfold extraHeaderCalls
  rw [List.filterMap_map]
  apply List.filterMap_eq_nil_iff.mpr
  intro p _
  rfl

theorem extraHeaderCalls_writes (k : KnownHeaders) (hs : List Bytes)
    (hk : ∀ l ∈ hs, isLineOf k.name l = false) :
    (extraHeaderCalls hs).filterMap (RequestCall.writes k) = [] := by
  unfold extraHeaderCalls
  rw [List.filterMap_map]
  apply List.filterMap_eq_nil_iff.mpr
  intro p hp
  obtain ⟨l, hl, hlp⟩ := List.mem_filterMap.mp hp
  have := hk l hl
  unfold isLineOf at this
  rw [hlp] at this
  simp only [Function.comp, RequestCall.writes]
  simp only at this
  rw [this]
  rfl

/-! ## The calls made on the requests -/

theorem startRequest_calls (c : TextCodec) (version : Bytes) (self : RemoteText) :
    (RemoteText.startRequest c version self).calls =
      [RequestCall.setHeader .UserAgentHeader (userAgent c version)]
        ++ (if self.contentType ≠ [] then
              [RequestCall.setHeader .ContentTypeHeader (c.fromUtf8 self.contentType)]
            else [])
        ++ (if self.timeoutSec ≠ 0 then
              [RequestCall.setTransferTimeout (wrapInt32 (1000 * self.timeoutSec))]
            else [])
        ++ extraHeaderCalls self.extraHeaders := by
  unfold RemoteText.startRequest
  simp only [extraHeadersLoop_calls]
  split_ifs <;> simp [QNetworkRequest.setHeader, QNetworkRequest.setTransferTimeout]

theorem start_calls (c : TextCodec) (version : Bytes) (self : RemoteText) :
    (RemoteText.start c version self).2.request.calls =
      (RemoteText.startRequest c version self).calls
        ++ (if self.postData ≠ [] ∧ self.contentType = [] then
              [RequestCall.setHeader .ContentTypeHeader formUrlencoded]
            else []) := by
  unfold RemoteText.start
  by_cases hp : self.postData = [] <;> by_cases hc : self.contentType = [] <;>
    simp [hp, hc, Dispatch.request, QNetworkRequest.setHeader]

theorem getRemoteFile_request_calls (c : TextCodec) (version : Bytes) (a : GetRemoteFileArgs) :
    (GetRemoteFile.request c version a).calls =
      [RequestCall.setHeader .UserAgentHeader (userAgent c version)]
        ++ (match a.contentType with
            | some contentType =>
              [RequestCall.setHeader .ContentTypeHeader (c.fromUtf8 contentType)]
            | none => [])
        ++ (if a.timeoutSec ≠ 0 then
              [RequestCall.setTransferTimeout (wrapInt32 (1000 * a.timeoutSec))]
            else [])
        ++ extraHeaderCalls a.extraHeaders := by
  unfold GetRemoteFile.request
  simp only [extraHeadersLoop_calls]
  cases a.contentType <;> split_ifs <;>
    simp [QNetworkRequest.setHeader, QNetworkRequest.setTransferTimeout]

theorem getRemoteFile_dispatch_request (c : TextCodec) (version : Bytes)
    (a : GetRemoteFileArgs) :
    (GetRemoteFile.dispatch c version a).request = GetRemoteFile.request c version a := by
  unfold GetRemoteFile.dispatch
  split_ifs <;> rfl

theorem wrapInt32_of_fits (t : Int) (h : -2147483 ≤ t ∧ t ≤ 2147483) :
    wrapInt32 (1000 * t) = t * 1000 := by
  unfold wrapInt32
  omega

theorem start_transferTimeout (c : TextCodec) (version : Bytes) (self : RemoteText) :
    (RemoteText.start c version self).2.request.transferTimeout =
      if self.timeoutSec = 0 then none else some (wrapInt32 (1000 * self.timeoutSec)) := by
  unfold QNetworkRequest.transferTimeout
  rw [start_calls, startRequest_calls]
  simp only [List.filterMap_append, extraHeaderCalls_timeout]
  by_cases ht : self.timeoutSec = 0 <;> by_cases hc : self.contentType = [] <;>
    by_cases hp : self.postData = [] <;>
    simp [ht, hc, hp, RequestCall.timeout?]

theorem getRemoteFile_transferTimeout (c : TextCodec) (version : Bytes)
    (a : GetRemoteFileArgs) :
    (GetRemoteFile.dispatch c version a).request.transferTimeout =
      if a.timeoutSec = 0 then none else some (wrapInt32 (1000 * a.timeoutSec)) := by
  unfold QNetworkRequest.transferTimeout
  rw [getRemoteFile_dispatch_request, getRemoteFile_request_calls]
  simp only [List.filterMap_append, extraHeaderCalls_timeout]
  by_cases ht : a.timeoutSec = 0 <;> cases a.contentType <;>
    simp [ht, RequestCall.timeout?]

theorem start_contentType (c : TextCodec) (version : Bytes) (self : RemoteText)
    (h : ∀ l ∈ self.extraHeaders, isLineOf KnownHeaders.ContentTypeHeader.name l = false) :
    (RemoteText.start c version self).2.request.header .ContentTypeHeader =
      if self.contentType ≠ [] then
        some (HeaderValue.cooked (c.fromUtf8 self.contentType))
      else if self.postData ≠ [] then some (HeaderValue.cooked formUrlencoded)
      else none := by
  unfold QNetworkRequest.header
  rw [start_calls, startRequest_calls]
  simp only [List.filterMap_append, extraHeaderCalls_writes _ _ h]
  by_cases ht : self.timeoutSec = 0 <;> by_cases hc : self.contentType = [] <;>
    by_cases hp : self.postData = [] <;>
    simp [ht, hc, hp, RequestCall.writes]

theorem start_userAgent (c : TextCodec) (version : Bytes) (self : RemoteText) :
    RequestCall.setHeader .UserAgentHeader (userAgent c version)
        ∈ (RemoteText.start c version self).2.request.calls ∧
      ((RemoteText.start c version self).2.request.header .UserAgentHeader).isSome = true := by
  constructor
  · rw [start_calls, startRequest_calls]
    simp
  · unfold QNetworkRequest.header
    rw [start_calls, startRequest_calls]
    have hw : RequestCall.writes .UserAgentHeader
        (RequestCall.setHeader .UserAgentHeader (userAgent c version))
          = some (HeaderValue.cooked (userAgent c version)) := by
      simp [RequestCall.writes]
    simp only [List.append_assoc, List.singleton_append, List.cons_append]
    rw [List.filterMap_cons_some hw, List.getLast?_isSome]
    simp

theorem getRemoteFile_contentType (c : TextCodec) (version : Bytes) (a : GetRemoteFileArgs)
    (h : ∀ l ∈ a.extraHeaders, isLineOf KnownHeaders.ContentTypeHeader.name l = false) :
    (GetRemoteFile.dispatch c version a).request.header .ContentTypeHeader =
      a.contentType.map fun ct => HeaderValue.cooked (c.fromUtf8 ct) := by
  unfold QNetworkRequest.header
  rw [getRemoteFile_dispatch_request, getRemoteFile_request_calls]
  simp only [List.filterMap_append, extraHeaderCalls_writes _ _ h]
  by_cases ht : a.timeoutSec = 0 <;> cases a.contentType <;>
    simp [ht, RequestCall.writes]

/-! ## Lemmas on the delivery of signals -/

theorem run_append (c : TextCodec) (self : RemoteText) (emitted : List Result)
    (es₁ es₂ : List ReplyEvent) :
    RemoteText.run c self emitted (es₁ ++ es₂) =
      RemoteText.run c (RemoteText.run c self emitted es₁).1
        (RemoteText.run c self emitted es₁).2 es₂ := by
  unfold RemoteText.run
  rw [List.foldl_append]

theorem run_readyRead (c : TextCodec) : ∀ (chunks : List Bytes) (self : RemoteText)
    (emitted : List Result),
    RemoteText.run c self emitted (chunks.map ReplyEvent.readyRead) =
      ({ self with buffer := self.buffer ++ chunks.flatten }, emitted)
  | [], self, emitted => by simp [RemoteText.run]
  | d :: ds, self, emitted => by
    have ih := run_readyRead c ds (self.slotHttpReadyRead d) emitted
    unfold RemoteText.run at ih ⊢
    rw [List.map_cons, List.foldl_cons]
    simp only [RemoteText.deliver]
    rw [ih]
    simp [RemoteText.slotHttpReadyRead, List.append_assoc]

theorem run_emitted_length (c : TextCodec) : ∀ (events : List ReplyEvent) (self : RemoteText)
    (emitted : List Result),
    (RemoteText.run c self emitted events).2.length =
      emitted.length + (events.filter ReplyEvent.isTerminal).length
  | [], self, emitted => by simp [RemoteText.run]
  | e :: es, self, emitted => by
    have ih := run_emitted_length c es
    unfold RemoteText.run at ih ⊢
    rw [List.foldl_cons, ih]
    cases e <;> simp [RemoteText.deliver, ReplyEvent.isTerminal] <;> omega

/-- The number of `Result` emissions of an exchange is the number of terminal
signals (`finished` and `errorOccurred`) the reply delivers. -/
theorem exchange_length (c : TextCodec) (version : Bytes) (self : RemoteText)
    (events : List ReplyEvent) :
    (RemoteText.exchange c version self events).length
      = (events.filter ReplyEvent.isTerminal).length := by
  unfold RemoteText.exchange
  rw [run_emitted_length]
  simp

theorem received_cons (ev : ReplyEvent) (es : List ReplyEvent) :
    received (ev :: es) = ev.data ++ received es := by
  simp [received]

theorem run_cons (c : TextCodec) (obj : RemoteText) (emitted : List Result)
    (ev : ReplyEvent) (es : List ReplyEvent) :
    RemoteText.run c obj emitted (ev :: es)
      = RemoteText.run c (RemoteText.deliver c (obj, emitted) ev).1
          (RemoteText.deliver c (obj, emitted) ev).2 es := by
  simp [RemoteText.run]

theorem run_mem (c : TextCodec) : ∀ (es : List ReplyEvent) (obj : RemoteText)
    (emitted : List Result) (r : Result),
    r ∈ (RemoteText.run c obj emitted es).2 →
      r ∈ emitted
        ∨ (∃ pre post, es = pre ++ ReplyEvent.finished :: post ∧
            r = ⟨c.fromUtf8 (obj.buffer ++ received pre), ""⟩)
        ∨ (∃ pre e post, es = pre ++ ReplyEvent.errorOccurred e :: post ∧ r = ⟨"", e⟩)
  | [], obj, emitted, r, hr => by
    left
    simpa [RemoteText.run] using hr
  | ev :: es, obj, emitted, r, hr => by
    rw [run_cons] at hr
    rcases run_mem c es _ _ r hr with h | ⟨pre, post, h1, h2⟩ | ⟨pre, e, post, h1, h2⟩
    · cases ev with
      | readyRead d => left; simpa [RemoteText.deliver] using h
      | errorOccurred e =>
        simp only [RemoteText.deliver, List.mem_append, List.mem_singleton] at h
        rcases h with h | h
        · left; exact h
        · right; right
          exact ⟨[], e, es, rfl, h⟩
      | finished =>
        simp only [RemoteText.deliver, List.mem_append, List.mem_singleton] at h
        rcases h with h | h
        · left; exact h
        · right; left
          refine ⟨[], es, rfl, ?_⟩
          rw [h]
          simp [RemoteText.slotHttpFinished, received]
    · right; left
      refine ⟨ev :: pre, post, by rw [h1]; rfl, ?_⟩
      rw [h2, received_cons]
      cases ev <;>
        simp [RemoteText.deliver, RemoteText.slotHttpReadyRead, ReplyEvent.data]
    · right; right
      exact ⟨ev :: pre, e, post, by rw [h1]; rfl, h2⟩

theorem loopExec_readyRead : ∀ (chunks : List Bytes) (rest : List ReplyEvent) (st : LoopState),
    loopExec (chunks.map ReplyEvent.readyRead ++ rest) st =
      loopExec rest { st with buffer := st.buffer ++ chunks.flatten }
  | [], rest, st => by simp
  | d :: ds, rest, st => by
    rw [List.map_cons, List.cons_append, loopExec, loopExec_readyRead ds rest]
    simp [List.append_assoc]

theorem loopExec_terminal (chunks : List Bytes) (term : ReplyEvent) (rest : List ReplyEvent)
    (hterm : term.isTerminal = true) :
    loopExec (chunks.map ReplyEvent.readyRead ++ term :: rest) ⟨[], "", false⟩ =
      some (match term with
        | .errorOccurred e => ⟨chunks.flatten, e, true⟩
        | _ => ⟨chunks.flatten, "", false⟩) := by
  rw [loopExec_readyRead]
  cases term with
  | readyRead d => cases hterm
  | errorOccurred e => simp [loopExec]
  | finished => simp [loopExec]

theorem getRemoteFile_of_events (c : TextCodec) (version : Bytes)
    (qnam : Dispatch → QNetworkReply) (a : GetRemoteFileArgs)
    (chunks : List Bytes) (term : ReplyEvent) (rest : List ReplyEvent)
    (hev : (qnam (GetRemoteFile.dispatch c version a)).events =
      chunks.map ReplyEvent.readyRead ++ term :: rest)
    (hterm : term.isTerminal = true) :
    GetRemoteFile c version qnam a = some
      { ret := !(term.isError && a.fail_on_error)
        str := chunks.flatten
        error :=
          match term with
          | .errorOccurred e => c.toUtf8 e
          | _ => a.error
        responseCode :=
          a.responseCode.map fun _ => (qnam (GetRemoteFile.dispatch c version a)).httpStatusCode
        signature :=
          a.signature.map fun old =>
            if (qnam (GetRemoteFile.dispatch c version a)).hasRawHeader (sigHeaderLabel c) then
              c.toUtf8 (c.fromUtf8
                ((qnam (GetRemoteFile.dispatch c version a)).rawHeader (sigHeaderLabel c)))
            else old } := by
  unfold GetRemoteFile
  simp only [hev, loopExec_terminal chunks term rest hterm]
  cases term with
  | readyRead d => cases hterm
  | errorOccurred e =>
    cases a.signature <;> cases a.responseCode <;> cases a.fail_on_error <;>
      simp [ReplyEvent.isError] <;> split_ifs <;> rfl
  | finished =>
    cases a.signature <;> cases a.responseCode <;>
      simp [ReplyEvent.isError] <;> split_ifs <;> rfl

/-! ## The claims -/

/-- C1: when the signals of an exchange are body chunks followed by `finished`,
the body handed to the caller is the concatenation of the chunks in arrival
order.  `RemoteText` emits exactly one `Result`, carrying the UTF-8 decoding of
those bytes and an empty error string, whatever the buffer of the object held
before `start`, in particular for an object reused after the signals `earlier`
of an earlier request; `GetRemoteFile` returns and its `str` output is those
bytes. -/
theorem body_is_concatenation_of_chunks (c : TextCodec) (version : Bytes)
    (self : RemoteText) (qnam : Dispatch → QNetworkReply) (a : GetRemoteFileArgs)
    (chunks : List Bytes) (rest : List ReplyEvent)
    (hev : (qnam (GetRemoteFile.dispatch c version a)).events =
      chunks.map ReplyEvent.readyRead ++ ReplyEvent.finished :: rest) :
    RemoteText.exchange c version self (chunks.map ReplyEvent.readyRead ++ [ReplyEvent.finished])
        = [⟨c.fromUtf8 chunks.flatten, ""⟩]
      ∧ (∀ earlier : List ReplyEvent,
          RemoteText.exchange c version
              (RemoteText.run c (RemoteText.start c version self).1 [] earlier).1
              (chunks.map ReplyEvent.readyRead ++ [ReplyEvent.finished])
            = [⟨c.fromUtf8 chunks.flatten, ""⟩])
      ∧ ∃ out, GetRemoteFile c version qnam a = some out ∧ out.str = chunks.flatten := by
  have hasync : ∀ obj : RemoteText,
      RemoteText.exchange c version obj
          (chunks.map ReplyEvent.readyRead ++ [ReplyEvent.finished])
        = [⟨c.fromUtf8 chunks.flatten, ""⟩] := by
    intro obj
    unfold RemoteText.exchange
    rw [run_append, run_readyRead]
    have hbuf : (RemoteText.start c version obj).1.buffer = [] := by
      unfold RemoteText.start
      split_ifs <;> rfl
    simp [RemoteText.run, RemoteText.deliver, RemoteText.slotHttpFinished, hbuf]
  exact ⟨hasync self, fun _ => hasync _,
    _, getRemoteFile_of_events c version qnam a chunks _ rest hev rfl, rfl⟩

/-- C1 evaluated: an object with a stale buffer and a synchronous GET, on the
chunks `ab`, `c`. -/
theorem body_is_concatenation_of_chunks_witness :
    RemoteText.exchange utf8 (ascii "30.0") versionCheck
        ([ascii "ab", ascii "c"].map ReplyEvent.readyRead ++ [ReplyEvent.finished])
        = [⟨"abc", ""⟩]
      ∧ (∀ earlier : List ReplyEvent,
          RemoteText.exchange utf8 (ascii "30.0")
              (RemoteText.run utf8 (RemoteText.start utf8 (ascii "30.0") versionCheck).1 []
                earlier).1
              ([ascii "ab", ascii "c"].map ReplyEvent.readyRead ++ [ReplyEvent.finished])
            = [⟨"abc", ""⟩])
      ∧ ∃ out, GetRemoteFile utf8 (ascii "30.0")
          (replyWith [.readyRead (ascii "ab"), .readyRead (ascii "c"), .finished] [] 200)
          plainGet = some out ∧ out.str = ascii "abc" :=
  body_is_concatenation_of_chunks utf8 (ascii "30.0") versionCheck
    (replyWith [.readyRead (ascii "ab"), .readyRead (ascii "c"), .finished] [] 200)
    plainGet [ascii "ab", ascii "c"] [] rfl

/-- C2: a synchronous call whose exchange reaches a terminal signal returns,
and it returns `false` if and only if that signal is a transport error and
`fail_on_error` is set; in every other case it returns `true`. -/
theorem returns_false_iff_error_and_fail_on_error (c : TextCodec) (version : Bytes)
    (qnam : Dispatch → QNetworkReply) (a : GetRemoteFileArgs)
    (chunks : List Bytes) (term : ReplyEvent) (rest : List ReplyEvent)
    (hev : (qnam (GetRemoteFile.dispatch c version a)).events =
      chunks.map ReplyEvent.readyRead ++ term :: rest)
    (hterm : term.isTerminal = true) :
    ∃ out, GetRemoteFile c version qnam a = some out ∧
      (out.ret = false ↔ (term.isError = true ∧ a.fail_on_error = true)) ∧
      (out.ret = true ↔ ¬ (term.isError = true ∧ a.fail_on_error = true)) := by
  refine ⟨_, getRemoteFile_of_events c version qnam a chunks term rest hev hterm, ?_, ?_⟩ <;>
    cases term.isError <;> cases a.fail_on_error <;> simp

/-- C2 evaluated: a transport error with `fail_on_error` set makes the call
return `false`. -/
theorem returns_false_iff_error_and_fail_on_error_witness :
    ∃ out, GetRemoteFile utf8 (ascii "30.0")
        (replyWith [.readyRead (ascii "ab"), .errorOccurred "Connection closed", .finished] [] 0)
        plainGet = some out ∧ out.ret = false := by
  obtain ⟨out, h, hfalse, -⟩ := returns_false_iff_error_and_fail_on_error utf8 (ascii "30.0")
    (replyWith [.readyRead (ascii "ab"), .errorOccurred "Connection closed", .finished] [] 0)
    plainGet [ascii "ab"] (.errorOccurred "Connection closed") [.finished] rfl rfl
  exact ⟨out, h, hfalse.mpr ⟨rfl, rfl⟩⟩

/-- C3: in `RemoteText::start` and in `GetRemoteFile` alike, the raw headers
set on the request are, in list order, one per extra header line that contains
`": "`; a line without `": "` sets none (and the builders are total, so such a
line fails nothing).  The pair set for a line `h` has as name the text before
the first occurrence of `": "` and as value everything after that occurrence:
it is `(n, v)` exactly when `h = n ++ ": " ++ v` and no occurrence of `": "`
in `h` starts before the end of `n`. -/
theorem extra_headers_split_at_first_separator (c : TextCodec) (version : Bytes)
    (self : RemoteText) (a : GetRemoteFileArgs) :
    (RemoteText.start c version self).2.request.rawHeaders
        = self.extraHeaders.filterMap headerPair
      ∧ (GetRemoteFile.dispatch c version a).request.rawHeaders
        = a.extraHeaders.filterMap headerPair
      ∧ (∀ h : Bytes, headerPair h = none ↔ ¬ headerSep <:+: h)
      ∧ (∀ h n v : Bytes, headerPair h = some (n, v) ↔
          (h = n ++ headerSep ++ v ∧
            ∀ n' v' : Bytes, h = n' ++ headerSep ++ v' → n.length ≤ n'.length)) := by
  refine ⟨?_, ?_, headerPair_eq_none_iff, headerPair_eq_some_iff⟩
  · unfold QNetworkRequest.rawHeaders
    rw [start_calls, startRequest_calls]
    simp only [List.filterMap_append, extraHeaderCalls_rawHeaders]
    by_cases ht : self.timeoutSec = 0 <;> by_cases hc : self.contentType = [] <;>
      by_cases hp : self.postData = [] <;>
      simp [ht, hc, hp, RequestCall.rawHeader?]
  · unfold QNetworkRequest.rawHeaders
    rw [getRemoteFile_dispatch_request, getRemoteFile_request_calls]
    simp only [List.filterMap_append, extraHeaderCalls_rawHeaders]
    by_cases ht : a.timeoutSec = 0 <;> cases a.contentType <;>
      simp [ht, RequestCall.rawHeader?]

/-- C3 evaluated: of the lines `X-Token: a: b`, `malformed`, `Accept: */*`
the first is split at its first separator and the second sets no header. -/
theorem extra_headers_split_at_first_separator_witness :
    (RemoteText.start utf8 (ascii "30.0") formPost).2.request.rawHeaders
        = [(ascii "X-Token", ascii "a: b"), (ascii "Accept", ascii "*/*")]
      ∧ (GetRemoteFile.dispatch utf8 (ascii "30.0") plainGet).request.rawHeaders
        = [(ascii "X-Token", ascii "a: b"), (ascii "Accept", ascii "*/*")] :=
  ⟨(extra_headers_split_at_first_separator utf8 (ascii "30.0") formPost plainGet).1.trans
      (by decide),
    (extra_headers_split_at_first_separator utf8 (ascii "30.0") formPost plainGet).2.1.trans
      (by decide)⟩

/-- C5: when no extra header line sets `Content-Type`, `RemoteText::start`
dispatches a POST of `postData` if `postData` is non-empty and a GET otherwise,
it sets the User-Agent header, and the Content-Type header is the explicit
`contentType` when one is given, `application/x-www-form-urlencoded` when none
is given and `postData` is non-empty, and not set at all when none is given and
`postData` is empty. -/
theorem start_method_and_content_type (c : TextCodec) (version : Bytes) (self : RemoteText)
    (h : ∀ l ∈ self.extraHeaders, isLineOf (ascii "Content-Type") l = false) :
    ((RemoteText.start c version self).2 =
        if self.postData ≠ [] then
          Dispatch.post (RemoteText.start c version self).2.request self.postData
        else Dispatch.get (RemoteText.start c version self).2.request)
      ∧ RequestCall.setHeader .UserAgentHeader (userAgent c version)
          ∈ (RemoteText.start c version self).2.request.calls
      ∧ ((RemoteText.start c version self).2.request.header .UserAgentHeader).isSome = true
      ∧ (RemoteText.start c version self).2.request.header .ContentTypeHeader =
          if self.contentType ≠ [] then
            some (HeaderValue.cooked (c.fromUtf8 self.contentType))
          else if self.postData ≠ [] then some (HeaderValue.cooked formUrlencoded)
          else none := by
  refine ⟨?_, (start_userAgent c version self).1, (start_userAgent c version self).2,
    start_contentType c version self h⟩
  unfold RemoteText.start
  by_cases hp : self.postData = [] <;> simp [hp, Dispatch.request]

/-- C5 evaluated: a URL without POST data and without extra headers is fetched
by a GET with the User-Agent set and no Content-Type; POST data `a=1` next to
extra headers for other names is sent by a POST with the Content-Type
`application/x-www-form-urlencoded`. -/
theorem start_method_and_content_type_witness :
    ((RemoteText.start utf8 (ascii "30.0") versionCheck).2.isPost = false
      ∧ ((RemoteText.start utf8 (ascii "30.0") versionCheck).2.request.header
          .UserAgentHeader).isSome = true
      ∧ (RemoteText.start utf8 (ascii "30.0") versionCheck).2.request.header
          .ContentTypeHeader = none)
    ∧ ((RemoteText.start utf8 (ascii "30.0") formPost).2.isPost = true
      ∧ (RemoteText.start utf8 (ascii "30.0") formPost).2.request.header
          .ContentTypeHeader = some (HeaderValue.cooked "application/x-www-form-urlencoded")) := by
  obtain ⟨hd, -, hua, hct⟩ := start_method_and_content_type utf8 (ascii "30.0") versionCheck
    (by decide)
  obtain ⟨hd2, -, -, hct2⟩ := start_method_and_content_type utf8 (ascii "30.0") formPost
    (by decide)
  refine ⟨⟨?_, hua, hct.trans (by decide)⟩, ?_, hct2.trans (by decide)⟩
  · rw [hd]
    decide
  · rw [hd2]
    decide

/-- C7, amended: in `RemoteText::start` and in `GetRemoteFile`, for every
`timeoutSec` from -2147483 to 2147483 (the values whose product with 1000 is
an `int`), the transfer timeout configured on the request is `timeoutSec * 1000`
when `timeoutSec` is nonzero, and no transfer timeout is configured when it is
zero. -/
theorem transfer_timeout_when_product_fits (c : TextCodec) (version : Bytes)
    (self : RemoteText) (a : GetRemoteFileArgs)
    (hs : -2147483 ≤ self.timeoutSec ∧ self.timeoutSec ≤ 2147483)
    (ha : -2147483 ≤ a.timeoutSec ∧ a.timeoutSec ≤ 2147483) :
    (RemoteText.start c version self).2.request.transferTimeout
        = (if self.timeoutSec = 0 then none else some (self.timeoutSec * 1000))
      ∧ (GetRemoteFile.dispatch c version a).request.transferTimeout
        = (if a.timeoutSec = 0 then none else some (a.timeoutSec * 1000)) := by
  rw [start_transferTimeout, getRemoteFile_transferTimeout, wrapInt32_of_fits _ hs,
    wrapInt32_of_fits _ ha]
  exact ⟨rfl, rfl⟩

/-- C7 evaluated: five seconds give 5000, zero seconds give no timeout. -/
theorem transfer_timeout_when_product_fits_witness :
    (RemoteText.start utf8 (ascii "30.0") formPost).2.request.transferTimeout = some 5000
      ∧ (GetRemoteFile.dispatch utf8 (ascii "30.0")
          { plainGet with timeoutSec := 0 }).request.transferTimeout = none :=
  transfer_timeout_when_product_fits utf8 (ascii "30.0") formPost
    { plainGet with timeoutSec := 0 } (by decide) (by decide)

/-- C7 as stated fails: `timeoutSec = 2147484` is an `int`, but its product
with 1000 is not, so the `int` handed to `setTransferTimeout` is not
`timeoutSec * 1000`; on a two's complement machine it is -2147483296. -/
theorem transfer_timeout_overflows :
    isInt32 2147484 ∧ ¬ isInt32 (2147484 * 1000)
      ∧ (GetRemoteFile.dispatch utf8 (ascii "30.0")
          { plainGet with timeoutSec := 2147484 }).request.transferTimeout
          = some (-2147483296)
      ∧ (GetRemoteFile.dispatch utf8 (ascii "30.0")
          { plainGet with timeoutSec := 2147484 }).request.transferTimeout
          ≠ some (2147484 * 1000) := by
  decide

/-- C9, amended: for every synchronous call with an explicit content type and
no extra header line that sets `Content-Type`, the Content-Type header of the
request built by `GetRemoteFile` equals that content type. -/
theorem getRemoteFile_explicit_content_type (c : TextCodec) (version : Bytes)
    (a : GetRemoteFileArgs) (contentType : Bytes)
    (hct : a.contentType = some contentType)
    (h : ∀ l ∈ a.extraHeaders, isLineOf (ascii "Content-Type") l = false) :
    (GetRemoteFile.dispatch c version a).request.header .ContentTypeHeader
      = some (HeaderValue.cooked (c.fromUtf8 contentType)) := by
  rw [getRemoteFile_contentType c version a h, hct]
  rfl

/-- C9 amended, evaluated: a JSON POST next to extra headers that name other
headers. -/
theorem getRemoteFile_explicit_content_type_witness :
    (GetRemoteFile.dispatch utf8 (ascii "30.0")
        { plainGet with
          contentType := some (ascii "application/json")
          request_type := ascii "POST"
          postData := some (ascii "{}") }).request.header .ContentTypeHeader
      = some (HeaderValue.cooked "application/json") :=
  getRemoteFile_explicit_content_type utf8 (ascii "30.0")
    { plainGet with
      contentType := some (ascii "application/json")
      request_type := ascii "POST"
      postData := some (ascii "{}") }
    (ascii "application/json") rfl (by decide)

/-- C9 as stated fails in both halves.  A synchronous POST of `a=1` without
content type and without extra headers is dispatched with no Content-Type
header on the request, not with `application/x-www-form-urlencoded`.  A call
with the explicit content type `application/json` and the extra header line
`Content-Type: text/plain` builds a request whose Content-Type header is
`text/plain`: the extra headers are applied after the explicit content type. -/
theorem getRemoteFile_content_type_not_as_claimed :
    (GetRemoteFile.dispatch utf8 (ascii "30.0")
        { plainGet with
          request_type := ascii "POST"
          postData := some (ascii "a=1")
          extraHeaders := [] }
      = Dispatch.post
          ⟨"https://example.test/version.json",
            [RequestCall.setHeader .UserAgentHeader "User-Agent: obs-basic 30.0",
             RequestCall.setTransferTimeout 5000]⟩
          (ascii "a=1")
      ∧ (GetRemoteFile.dispatch utf8 (ascii "30.0")
          { plainGet with
            request_type := ascii "POST"
            postData := some (ascii "a=1")
            extraHeaders := [] }).request.header .ContentTypeHeader = none)
      ∧ (GetRemoteFile.dispatch utf8 (ascii "30.0")
          { plainGet with
            contentType := some (ascii "application/json")
            extraHeaders := [ascii "Content-Type: text/plain"] }).request.header
            .ContentTypeHeader
          = some (HeaderValue.raw (ascii "text/plain")) := by
  decide

/-- C4 at the failing input: a chunk, then `errorOccurred`, then `finished`.
The object emits `Result` twice, first the failure and then a success that
carries the bytes received before the failure. -/
theorem result_emitted_twice_on_error :
    RemoteText.exchange utf8 (ascii "30.0") versionCheck
        [.readyRead (ascii "ab"), .errorOccurred "Connection closed", .finished]
      = [⟨"", "Connection closed"⟩, ⟨"ab", ""⟩]
    ∧ (RemoteText.exchange utf8 (ascii "30.0") versionCheck
        [.readyRead (ascii "ab"), .errorOccurred "Connection closed", .finished]).length = 2 := by
  decide

/-- C8, amended: when body chunks are followed by a transport failure, the
`Result` that `RemoteText` emits for the failure carries an empty body and the
error string of the reply, while `GetRemoteFile` returns with its `str` output
holding exactly the chunks that arrived before the failure. -/
theorem bytes_before_failure (c : TextCodec) (version : Bytes)
    (self : RemoteText) (qnam : Dispatch → QNetworkReply) (a : GetRemoteFileArgs)
    (chunks : List Bytes) (e : QString) (rest : List ReplyEvent)
    (hev : (qnam (GetRemoteFile.dispatch c version a)).events =
      chunks.map ReplyEvent.readyRead ++ ReplyEvent.errorOccurred e :: rest) :
    RemoteText.exchange c version self
        (chunks.map ReplyEvent.readyRead ++ [ReplyEvent.errorOccurred e])
        = [⟨"", e⟩]
      ∧ ∃ out, GetRemoteFile c version qnam a = some out ∧ out.str = chunks.flatten := by
  constructor
  · unfold RemoteText.exchange
    rw [run_append, run_readyRead]
    simp [RemoteText.run, RemoteText.deliver, RemoteText.slotHttpError]
  · exact ⟨_, getRemoteFile_of_events c version qnam a chunks _ rest hev rfl, rfl⟩

/-- C8 amended, evaluated on the chunk `ab` followed by a failure. -/
theorem bytes_before_failure_witness :
    RemoteText.exchange utf8 (ascii "30.0") versionCheck
        ([ascii "ab"].map ReplyEvent.readyRead ++ [ReplyEvent.errorOccurred "Connection closed"])
        = [⟨"", "Connection closed"⟩]
      ∧ ∃ out, GetRemoteFile utf8 (ascii "30.0")
          (replyWith [.readyRead (ascii "ab"), .errorOccurred "Connection closed", .finished]
            [] 0)
          plainGet = some out ∧ out.str = ascii "ab" :=
  bytes_before_failure utf8 (ascii "30.0") versionCheck
    (replyWith [.readyRead (ascii "ab"), .errorOccurred "Connection closed", .finished] [] 0)
    plainGet [ascii "ab"] "Connection closed" [.finished] rfl

/-- C8 as stated fails for `GetRemoteFile`: after the chunk `ab` and a
transport failure the `str` output is `ab`, the bytes that arrived before the
failure. -/
theorem getRemoteFile_keeps_bytes_before_failure :
    GetRemoteFile utf8 (ascii "30.0")
        (replyWith [.readyRead (ascii "ab"), .errorOccurred "Connection closed", .finished]
          [] 0)
        { plainGet with fail_on_error := false }
      = some
          { ret := true
            str := ascii "ab"
            error := ascii "Connection closed"
            responseCode := some 0
            signature := some (ascii "unset") } := by
  decide

/-- C10, amended: every `Result` that `RemoteText` emits is of one of two
shapes, and there is one per terminal signal.  A success event, emitted at a
`finished` signal, has an empty error message and as body the decoding of the
bytes received up to that signal, so exactly one of its arguments is non-empty
unless that decoding is empty.  A failure event, emitted at an `errorOccurred`
signal, has an empty body and as error message the error string of the reply,
which is non-empty as the error strings of the reply are: exactly one of its
arguments is non-empty. -/
theorem result_argument_shapes (c : TextCodec) (version : Bytes) (self : RemoteText)
    (events : List ReplyEvent)
    (herr : ∀ e : QString, ReplyEvent.errorOccurred e ∈ events → e ≠ "") :
    (∀ r ∈ RemoteText.exchange c version self events,
        (∃ pre post, events = pre ++ ReplyEvent.finished :: post ∧
            r = ⟨c.fromUtf8 (received pre), ""⟩)
          ∨ (∃ pre e post, events = pre ++ ReplyEvent.errorOccurred e :: post ∧
            r = ⟨"", e⟩ ∧ e ≠ ""))
      ∧ (RemoteText.exchange c version self events).length
          = (events.filter ReplyEvent.isTerminal).length := by
  refine ⟨?_, exchange_length c version self events⟩
  intro r hr
  have hbuf : (RemoteText.start c version self).1.buffer = [] := by
    unfold RemoteText.start
    split_ifs <;> rfl
  rcases run_mem c events _ [] r hr with h | ⟨pre, post, h1, h2⟩ | ⟨pre, e, post, h1, h2⟩
  · cases h
  · left
    refine ⟨pre, post, h1, ?_⟩
    rw [h2, hbuf, List.nil_append]
  · right
    exact ⟨pre, e, post, h1, h2, herr e (by rw [h1]; simp)⟩

/-- C10 amended, evaluated: of the two events of a failed exchange the failure
has an empty body and the error string of the reply, and the success that
follows has the bytes received so far and an empty error message. -/
theorem result_argument_shapes_witness :
    RemoteText.exchange utf8 (ascii "30.0") versionCheck
        [.readyRead (ascii "ab"), .errorOccurred "Connection closed", .finished]
      = [⟨"", "Connection closed"⟩, ⟨"ab", ""⟩]
    ∧ ((∃ pre post,
          [ReplyEvent.readyRead (ascii "ab"), .errorOccurred "Connection closed", .finished]
            = pre ++ ReplyEvent.finished :: post ∧
          (⟨"", "Connection closed"⟩ : Result) = ⟨utf8.fromUtf8 (received pre), ""⟩)
      ∨ (∃ pre e post,
          [ReplyEvent.readyRead (ascii "ab"), .errorOccurred "Connection closed", .finished]
            = pre ++ ReplyEvent.errorOccurred e :: post ∧
          (⟨"", "Connection closed"⟩ : Result) = ⟨"", e⟩ ∧ e ≠ "")) :=
  ⟨by decide,
    (result_argument_shapes utf8 (ascii "30.0") versionCheck
      [.readyRead (ascii "ab"), .errorOccurred "Connection closed", .finished]
      (by
        intro e he
        simp only [List.mem_cons, ReplyEvent.errorOccurred.injEq, List.mem_singleton,
          reduceCtorEq, false_or, or_false, List.mem_nil_iff] at he
        subst he
        decide)).1 _ (by decide)⟩

/-- C10 as stated fails: an exchange that delivers no body chunk before
`finished` emits a `Result` whose body and error message are both empty. -/
theorem result_with_both_arguments_empty :
    RemoteText.exchange utf8 (ascii "30.0") versionCheck [.finished] = [⟨"", ""⟩] := by
  decide

end Obs
